import Mathlib

/-!
Verification of the employee-database application: a shallow embedding of
the SQL-safety validator, the six read-only query-tool operations (in both
the MCP protocol-server form and the directly callable interface form), and
the web CRUD handlers, together with theorems settling the specification
claims about them.

Conventions of the embedding:
* Strings are handled through their character lists (`String.data`).
* `Char.toLower` folds only ASCII letters; this agrees with Python's
  `str.lower` and with SQLite's `LIKE` case folding on the ASCII inputs the
  claims are about.
* Machine floats (employee salaries) are modelled by `Rat`; the arithmetic
  in the claims (single-row aggregates) is exact in both models.
* Database tables are lists of rows; SQL query clauses (`LEFT JOIN`,
  `WHERE`, `ORDER BY`, `LIMIT`, aggregate functions) are modelled by the
  list operations implementing their SQLite semantics.
-/

/-! ### Python string primitives -/

/-- Python `s.lower()` on the character list: Python's `str.lower`, which on the
ASCII range folds exactly the letters `A`–`Z` (as `Char.toLower` does). -/
def pyLowerChars (s : String) : List Char :=
  s.data.map Char.toLower

/-- Python `s.strip()`: drop leading and trailing whitespace. -/
def pyStripChars (l : List Char) : List Char :=
  ((l.dropWhile Char.isWhitespace).reverse.dropWhile Char.isWhitespace).reverse

/-- The `sql.lower().strip()` preprocessing performed by `validate_sql_safety`. -/
def pyPrep (s : String) : List Char :=
  pyStripChars (pyLowerChars s)

/-- Python's substring containment `pat in s`, on character lists. -/
def charsContains : List Char → List Char → Bool
  | [], pat => pat.isEmpty
  | c :: s', pat => pat.isPrefixOf (c :: s') || charsContains s' pat

theorem charsContains_infix_iff (s pat : List Char) :
    charsContains s pat = true ↔ pat <:+: s := by
  induction s with
  | nil =>
    simp [charsContains, List.isEmpty_iff]
  | cons c s' ih =>
    simp only [charsContains, Bool.or_eq_true, List.isPrefixOf_iff_prefix, ih,
      List.infix_cons_iff]

/-! ### The SQL safety validator

Embeds `validate_sql_safety` from `src/mcp/employees_server.py`
(lines 44–64) and the textually identical copy
`EmployeeDBInterface.validate_sql_safety` in
`src/mcp/simple_db_interface.py` (lines 26–46). -/

/-- The denylist of the validator, in source order. -/
def dangerous_keywords : List String :=
  ["drop", "delete", "truncate", "alter", "create", "insert", "update",
   "grant", "revoke", "exec", "execute", "sp_", "xp_", "--", "/*", "*/"]

/-- Embeds `validate_sql_safety(sql)`: lowercase and strip, reject when any
denylisted substring occurs, then reject unless the string starts with
`select`. -/
def validate_sql_safety (sql : String) : Bool :=
  let sql_lower := pyPrep sql
  if dangerous_keywords.any (fun k => charsContains sql_lower k.data) then
    false
  else if !("select".data.isPrefixOf sql_lower) then
    false
  else
    true

/-- C1. The SQL safety validator accepts a query string if and only if,
after lowercasing and trimming, the string starts with `select` and contains
none of the denylisted substrings anywhere (plain substring containment). -/
theorem validate_sql_safety_accepts_iff (s : String) :
    validate_sql_safety s = true ↔
      ("select".data <+: pyPrep s ∧
        ∀ k ∈ dangerous_keywords, ¬ k.data <:+: pyPrep s) := by
  have hnf : validate_sql_safety s =
      (!(dangerous_keywords.any fun k => charsContains (pyPrep s) k.data) &&
        "select".data.isPrefixOf (pyPrep s)) := by
    unfold validate_sql_safety
    by_cases h1 : (dangerous_keywords.any fun k => charsContains (pyPrep s) k.data) <;>
      by_cases h2 : ("select".data.isPrefixOf (pyPrep s)) <;> simp [h1, h2]
  rw [hnf]
  simp only [Bool.and_eq_true, Bool.not_eq_true', List.any_eq_false,
    List.isPrefixOf_iff_prefix, charsContains_infix_iff]
  tauto

/-! ### SQLite `LIKE` semantics

The search operations execute `col LIKE '%' || filter || '%'` through
SQLite.  SQLite's `LIKE` (with no `ESCAPE` clause and default pragmas)
treats `%` as "any sequence", `_` as "any single character", and compares
all other characters case-insensitively on the ASCII range. -/

/-- SQLite's `LIKE` character comparison: ASCII-case-insensitive. -/
def likeCharEq (p c : Char) : Bool :=
  p.toLower == c.toLower

/-- SQLite `LIKE` pattern matching on character lists. -/
def likeCharsMatch (ps s : List Char) : Bool :=
  match ps, s with
  | [], [] => true
  | [], _ :: _ => false
  | p :: ps', s =>
    if p = '%' then
      likeCharsMatch ps' s ||
        (match s with
         | [] => false
         | _ :: s' => likeCharsMatch (p :: ps') s')
    else
      match s with
      | [] => false
      | c :: s' =>
        if p = '_' then likeCharsMatch ps' s'
        else likeCharEq p c && likeCharsMatch ps' s'
  termination_by (ps.length, s.length)

/-- Matching of `col LIKE` against the pattern wrapping wildcard markers
around a filter, which is what the search operations
build around each provided filter. -/
def likeSubstr (filter : String) (s : String) : Bool :=
  likeCharsMatch ('%' :: (filter.data ++ ['%'])) s.data

/-- A filter string free of the `LIKE` wildcard characters `%` and `_`. -/
def noWildcards (l : List Char) : Bool :=
  l.all (fun c => !(c == '%') && !(c == '_'))

/-! ### Data model

Embeds the two tables of `src/app/models/employee.py`: `departments`
(integer primary key, required name) and `employees` (integer primary key,
required name, nullable department reference, nullable float salary,
nullable string hire date). -/

structure Department where
  id : Int
  name : String
  deriving DecidableEq, Repr

structure Employee where
  id : Int
  name : String
  department_id : Option Int
  salary : Option Rat
  hire_date : Option String
  deriving DecidableEq, Repr

/-- The persisted database state: the two tables. -/
structure DB where
  departments : List Department
  employees : List Employee
  deriving DecidableEq, Repr

/-- One result row of the left-joined employee/department query
`SELECT e.id, e.name, e.department_id, d.name AS department_name,
e.salary, e.hire_date FROM employees e LEFT JOIN departments d ON
e.department_id = d.id`. -/
structure Row where
  id : Int
  name : String
  department_id : Option Int
  department_name : Option String
  salary : Option Rat
  hire_date : Option String
  deriving DecidableEq, Repr

/-- The result row of the aggregate statistics query. -/
structure Stats where
  total_employees : Nat
  avg_salary : Option Rat
  min_salary : Option Rat
  max_salary : Option Rat
  deriving DecidableEq, Repr

/-! ### SQL clause semantics, shared by both adapter embeddings -/

/-- Clause `ORDER BY id` on the employees table (primary keys are unique, so any
sort by id models the engine's ordering). -/
def sortEmployeesById (l : List Employee) : List Employee :=
  List.insertionSort (fun a b => a.id ≤ b.id) l

/-- Clause `ORDER BY id` on the departments table. -/
def sortDepartmentsById (l : List Department) : List Department :=
  List.insertionSort (fun a b => a.id ≤ b.id) l

/-- Clause `LIMIT ?` with SQLite semantics: a negative bound means "no limit". -/
def sqlLimit (limit : Int) (rows : List α) : List α :=
  if limit < 0 then rows else rows.take limit.toNat

/-- The `LEFT JOIN departments d ON e.department_id = d.id` row for one
employee: a `NULL` reference joins no department, a set reference joins the
department row carrying that primary key. -/
def joinRow (db : DB) (e : Employee) : Row :=
  { id := e.id
    name := e.name
    department_id := e.department_id
    department_name :=
      match e.department_id with
      | none => none
      | some x => (db.departments.find? (fun d => d.id == x)).map (fun d => d.name)
    salary := e.salary
    hire_date := e.hire_date }

/-- Python truthiness of an optional integer argument: `None` and `0` are
both falsy. -/
def pyTruthyInt : Option Int → Bool
  | none => false
  | some n => n != 0

/-- SQLite `MIN(salary)`: stepwise minimum over the non-`NULL` values. -/
def aggMin (l : List Rat) : Option Rat :=
  l.foldl
    (fun acc x =>
      match acc with
      | none => some x
      | some m => some (if x < m then x else m))
    none

/-- SQLite `MAX(salary)`: stepwise maximum over the non-`NULL` values. -/
def aggMax (l : List Rat) : Option Rat :=
  l.foldl
    (fun acc x =>
      match acc with
      | none => some x
      | some m => some (if m < x then x else m))
    none

/-- SQLite `AVG(salary)`: running sum of the non-`NULL` values divided by
their count; `NULL` on an empty set. -/
def aggAvg (l : List Rat) : Option Rat :=
  if l.isEmpty then none else some (l.foldl (· + ·) 0 / l.length)

/-- The four aggregates of the statistics query over a set of employee
rows: `COUNT(*)`, `AVG(salary)`, `MIN(salary)`, `MAX(salary)`. -/
def statsQuery (rows : List Employee) : Stats :=
  let sals := rows.filterMap (fun e => e.salary)
  { total_employees := rows.length
    avg_salary := aggAvg sals
    min_salary := aggMin sals
    max_salary := aggMax sals }

/-! ### The directly callable adapter

Embeds the query methods of `EmployeeDBInterface` in
`src/mcp/simple_db_interface.py`. -/

namespace EmployeeDBInterface

/-- Embeds `list_employees(limit=100)`: left-joined rows ordered by employee id,
bounded by `LIMIT ?`. -/
def list_employees (db : DB) (limit : Int) : List Row :=
  sqlLimit limit ((sortEmployeesById db.employees).map (joinRow db))

/-- Embeds `get_employee(employee_id)`: the left-joined row whose employee id
matches, or `None`. -/
def get_employee (db : DB) (employee_id : Int) : Option Row :=
  (db.employees.find? (fun e => e.id == employee_id)).map (joinRow db)

/-- Embeds `search_employees(name, department, limit=50)`: the left-joined
rows, filtered by `e.name LIKE '%name%'` when the name filter is truthy and
by `d.name LIKE '%department%'` when the department filter is truthy
(a row whose join produced no department name fails that condition), ordered
by id and bounded by the limit. -/
def search_employees (db : DB) (name : String) (department : String)
    (limit : Int) : List Row :=
  let rows := (sortEmployeesById db.employees).map (joinRow db)
  let rows :=
    if name ≠ "" then rows.filter (fun r => likeSubstr name r.name) else rows
  let rows :=
    if department ≠ "" then
      rows.filter (fun r =>
        match r.department_name with
        | some dn => likeSubstr department dn
        | none => false)
    else rows
  sqlLimit limit rows

/-- Embeds `list_departments()`: the department table ordered by id. -/
def list_departments (db : DB) : List Department :=
  sortDepartmentsById db.departments

/-- Embeds `get_employee_stats(department_id=None)`: the aggregate query, filtered
by `WHERE department_id = ?` only when the argument is truthy (Python
truthiness: `None` and `0` both select the unfiltered query). -/
def get_employee_stats (db : DB) (department_id : Option Int) : Stats :=
  if pyTruthyInt department_id then
    statsQuery (db.employees.filter (fun e => e.department_id == department_id))
  else
    statsQuery db.employees

/-- Embeds `safe_query(query)`: validate, then hand the raw SQL to the engine
(abstracted as `engine`, a map from SQL text to result rows or an engine
error); a validation failure raises `ValueError` with a fixed message and an
engine failure raises `ValueError("SQL Error: ...")`. -/
def safe_query (engine : String → Except String (List (List (String × String))))
    (query : String) : Except String (List (List (String × String))) :=
  if !(validate_sql_safety query) then
    Except.error "Query contains unsafe operations. Only SELECT statements are allowed."
  else
    match engine query with
    | Except.ok rows => Except.ok rows
    | Except.error e => Except.error ("SQL Error: " ++ e)

end EmployeeDBInterface

/-! ### The web CRUD handlers

Embeds the form handlers of `src/app/views/main.py`.  Form fields arrive as
strings; the handlers normalize empty optional fields to `None` before use,
which the embedding takes as given for the department and hire-date fields
(they are passed as `Option` values) and models explicitly for the salary
field, whose numeric parsing is the behavior under test.  `float(...)` is
abstracted as a `parse` argument: `none` models a `ValueError`. -/

inductive CreateResult where
  /-- Flash of an invalid-salary-format error and a re-render: no insert. -/
  | invalidSalary
  /-- A committed insert and the id assigned to the new row. -/
  | created (db : DB) (id : Int)
  deriving DecidableEq, Repr

/-- The primary key SQLite assigns to a fresh employee row: one more than
the largest id in the table. -/
def freshEmployeeId (db : DB) : Int :=
  1 + db.employees.foldl (fun m e => max m e.id) 0

/-- Embeds `create_employee` (POST branch): parse the salary field when non-empty,
rejecting on parse failure before any insert; otherwise append the new row. -/
def create_employee (parse : String → Option Rat) (db : DB) (name : String)
    (department_id : Option Int) (salary_field : String)
    (hire_date : Option String) : CreateResult :=
  let salary? : Option (Option Rat) :=
    if salary_field ≠ "" then
      match parse salary_field with
      | none => none
      | some v => some (some v)
    else some none
  match salary? with
  | none => CreateResult.invalidSalary
  | some sal =>
    let e : Employee :=
      { id := freshEmployeeId db, name := name, department_id := department_id,
        salary := sal, hire_date := hire_date }
    CreateResult.created { db with employees := db.employees ++ [e] } (freshEmployeeId db)

inductive EditOutcome where
  /-- Abort by `get_or_404`: no row carries the requested id. -/
  | notFound
  /-- Flash of an invalid-salary-format error and a re-render: no commit. -/
  | invalidSalary
  /-- A committed update. -/
  | updated
  deriving DecidableEq, Repr

/-- Embeds `edit_employee` (POST branch): 404 when the id is absent; on a non-empty
salary field that fails to parse, report the validation error and commit
nothing; otherwise overwrite the row's four mutable fields (an empty salary
field clears the stored salary). -/
def edit_employee (parse : String → Option Rat) (db : DB) (employee_id : Int)
    (name : String) (department_id : Option Int) (salary_field : String)
    (hire_date : Option String) : DB × EditOutcome :=
  match db.employees.find? (fun e => e.id == employee_id) with
  | none => (db, EditOutcome.notFound)
  | some _ =>
    let sal? : Option (Option Rat) :=
      if salary_field ≠ "" then
        match parse salary_field with
        | none => none
        | some v => some (some v)
      else some none
    match sal? with
    | none => (db, EditOutcome.invalidSalary)
    | some sal =>
      let db' :=
        { db with
            employees := db.employees.map (fun e =>
              if e.id == employee_id then
                { id := employee_id, name := name, department_id := department_id,
                  salary := sal, hire_date := hire_date }
              else e) }
      (db', EditOutcome.updated)

inductive DeleteOutcome where
  /-- Abort by `get_or_404`: no row carries the requested id. -/
  | notFound
  /-- Flash of the deleted-successfully message. -/
  | deleted
  deriving DecidableEq, Repr

/-- Embeds `delete_employee`: 404 when the id is absent, otherwise remove the row
and commit. -/
def delete_employee (db : DB) (employee_id : Int) : DB × DeleteOutcome :=
  match db.employees.find? (fun e => e.id == employee_id) with
  | none => (db, DeleteOutcome.notFound)
  | some _ =>
    ({ db with employees := db.employees.filter (fun e => !(e.id == employee_id)) },
      DeleteOutcome.deleted)

/-! ### The MCP protocol-server adapter

Embeds `handle_call_tool` from `src/mcp/employees_server.py`.  The tool
dispatcher receives a tool name plus an argument mapping; the embedding
represents each well-formed invocation as a `ToolCall` constructor whose
optional fields stand for absent dictionary keys (`arguments.get`).  The
result is the payload the handler wraps into its single `TextContent`:
result rows, a single row, statistics, or plain text. -/

inductive ToolCall where
  | list_employees (limit : Option Int)
  | get_employee (employee_id : Int)
  | search_employees (name : Option String) (department : Option String)
      (limit : Option Int)
  | list_departments
  | get_employee_stats (department_id : Option Int)
  | safe_query (query : String)
  | otherTool (name : String)
  deriving DecidableEq, Repr

inductive ToolOut where
  | rows (rs : List Row)
  | rowOut (r : Row)
  | deptRows (ds : List Department)
  | statsOut (s : Stats)
  | queryRows (rs : List (List (String × String)))
  | text (t : String)
  deriving DecidableEq, Repr

/-- Embeds `handle_call_tool(name, arguments)`: the six tool branches plus the
unknown-tool fallback, each duplicating the SQL of the directly callable
interface (the two source files carry textually identical queries). -/
def handle_call_tool (engine : String → Except String (List (List (String × String))))
    (db : DB) : ToolCall → ToolOut
  | ToolCall.list_employees limitArg =>
    let limit := limitArg.getD 100
    ToolOut.rows (sqlLimit limit ((sortEmployeesById db.employees).map (joinRow db)))
  | ToolCall.get_employee employee_id =>
    match (db.employees.find? (fun e => e.id == employee_id)).map (joinRow db) with
    | some r => ToolOut.rowOut r
    | none => ToolOut.text "Employee not found"
  | ToolCall.search_employees nameArg departmentArg limitArg =>
    let name_filter := nameArg.getD ""
    let department_filter := departmentArg.getD ""
    let limit := limitArg.getD 50
    let rows := (sortEmployeesById db.employees).map (joinRow db)
    let rows :=
      if name_filter ≠ "" then rows.filter (fun r => likeSubstr name_filter r.name)
      else rows
    let rows :=
      if department_filter ≠ "" then
        rows.filter (fun r =>
          match r.department_name with
          | some dn => likeSubstr department_filter dn
          | none => false)
      else rows
    ToolOut.rows (sqlLimit limit rows)
  | ToolCall.list_departments =>
    ToolOut.deptRows (sortDepartmentsById db.departments)
  | ToolCall.get_employee_stats department_id =>
    if pyTruthyInt department_id then
      ToolOut.statsOut
        (statsQuery (db.employees.filter (fun e => e.department_id == department_id)))
    else
      ToolOut.statsOut (statsQuery db.employees)
  | ToolCall.safe_query query =>
    if !(validate_sql_safety query) then
      ToolOut.text "Error: Query contains unsafe operations. Only SELECT statements are allowed."
    else
      match engine query with
      | Except.ok rows => ToolOut.queryRows rows
      | Except.error e => ToolOut.text ("SQL Error: " ++ e)
  | ToolCall.otherTool nm =>
    ToolOut.text ("Unknown tool: " ++ nm)

/-- The result rows a protocol answer carries, when it carries any. -/
def ToolOut.queryRowsOf : ToolOut → Option (List (List (String × String)))
  | ToolOut.queryRows rs => some rs
  | _ => none

/-- The result rows of a directly callable `safe_query`, when it succeeds. -/
def exceptRowsOf : Except String (List (List (String × String))) →
    Option (List (List (String × String)))
  | Except.ok rs => some rs
  | Except.error _ => none

/-! ### Independent (specification-side) aggregates

`statsSpec` computes the four statistics with the library's list functions,
independently of the stepwise engine aggregates in `statsQuery`. -/

/-- Count, average, minimum and maximum salary computed independently over a
set of employees (aggregates over the non-`NULL` salaries). -/
def statsSpec (rows : List Employee) : Stats :=
  let sals := rows.filterMap (fun e => e.salary)
  { total_employees := rows.length
    avg_salary := if sals = [] then none else some (sals.sum / sals.length)
    min_salary := sals.min?
    max_salary := sals.max? }

/-! ### Lemmas about the `LIKE` matcher -/

theorem likeCharsMatch_nil_iff (s : List Char) :
    likeCharsMatch [] s = true ↔ s = [] := by
  cases s <;> simp [likeCharsMatch]

theorem likeCharsMatch_pct_nil (ps : List Char) :
    likeCharsMatch ('%' :: ps) [] = likeCharsMatch ps [] := by
  rw [likeCharsMatch]
  simp

theorem likeCharsMatch_pct_cons (ps : List Char) (c : Char) (s' : List Char) :
    likeCharsMatch ('%' :: ps) (c :: s') =
      (likeCharsMatch ps (c :: s') || likeCharsMatch ('%' :: ps) s') := by
  rw [likeCharsMatch]
  simp

theorem likeCharsMatch_lit_nil (p : Char) (ps : List Char) (hp : ¬ p = '%') :
    likeCharsMatch (p :: ps) [] = false := by
  rw [likeCharsMatch]
  simp [hp]

theorem likeCharsMatch_lit_cons (p : Char) (ps : List Char) (c : Char)
    (s' : List Char) (hp : ¬ p = '%') (hu : ¬ p = '_') :
    likeCharsMatch (p :: ps) (c :: s') =
      (likeCharEq p c && likeCharsMatch ps s') := by
  rw [likeCharsMatch]
  simp [hp, hu]

theorem likeCharsMatch_pct_iff (ps s : List Char) :
    likeCharsMatch ('%' :: ps) s = true ↔
      ∃ t, t <:+ s ∧ likeCharsMatch ps t = true := by
  induction s with
  | nil =>
    rw [likeCharsMatch_pct_nil]
    constructor
    · intro h; exact ⟨[], List.suffix_rfl, h⟩
    · rintro ⟨t, hts, hm⟩
      rw [List.suffix_nil] at hts
      subst hts; exact hm
  | cons c s' ih =>
    rw [likeCharsMatch_pct_cons]
    simp only [Bool.or_eq_true]
    constructor
    · intro h
      rcases h with h | h
      · exact ⟨c :: s', List.suffix_rfl, h⟩
      · obtain ⟨t, hts, hm⟩ := ih.mp h
        exact ⟨t, hts.trans (List.suffix_cons c s'), hm⟩
    · rintro ⟨t, hts, hm⟩
      rcases List.suffix_cons_iff.mp hts with h | h
      · subst h; exact Or.inl hm
      · exact Or.inr (ih.mpr ⟨t, h, hm⟩)

theorem likeCharsMatch_pct_all (s : List Char) : likeCharsMatch ['%'] s = true := by
  rw [likeCharsMatch_pct_iff]
  exact ⟨[], List.nil_suffix, by rw [likeCharsMatch]⟩

theorem likeCharsMatch_lit_iff (ps : List Char) (h : noWildcards ps = true) :
    ∀ s : List Char,
      likeCharsMatch (ps ++ ['%']) s = true ↔
        ps.map Char.toLower <+: s.map Char.toLower := by
  induction ps with
  | nil =>
    intro s
    simpa using likeCharsMatch_pct_all s
  | cons p ps' ih =>
    have hp : ¬ p = '%' ∧ ¬ p = '_' ∧ noWildcards ps' = true := by
      simp only [noWildcards, List.all_cons, Bool.and_eq_true, Bool.not_eq_true',
        beq_eq_false_iff_ne, ne_eq] at h ⊢
      exact ⟨h.1.1, h.1.2, by simpa [noWildcards] using h.2⟩
    intro s
    cases s with
    | nil =>
      rw [List.cons_append, likeCharsMatch_lit_nil p _ hp.1]
      simp
    | cons c s' =>
      rw [List.cons_append, likeCharsMatch_lit_cons p _ c s' hp.1 hp.2.1]
      simp only [Bool.and_eq_true, likeCharEq, beq_iff_eq, List.map_cons,
        List.cons_prefix_cons]
      exact and_congr Iff.rfl (ih hp.2.2 s')

theorem likeSubstr_infix_iff (pat s : String) (h : noWildcards pat.data = true) :
    likeSubstr pat s = true ↔
      pat.data.map Char.toLower <:+: s.data.map Char.toLower := by
  unfold likeSubstr
  rw [likeCharsMatch_pct_iff]
  constructor
  · rintro ⟨t, hts, hm⟩
    rw [likeCharsMatch_lit_iff _ h] at hm
    exact List.infix_iff_prefix_suffix.mpr ⟨t.map Char.toLower, hm, hts.map _⟩
  · intro hinf
    obtain ⟨u, hpu, hus⟩ := List.infix_iff_prefix_suffix.mp hinf
    obtain ⟨t0, ht0⟩ := hus
    obtain ⟨l₁, l₂, hsplit, -, hmap2⟩ := List.map_eq_append_iff.mp ht0.symm
    refine ⟨l₂, ⟨l₁, hsplit.symm⟩, ?_⟩
    rw [likeCharsMatch_lit_iff _ h, hmap2]
    exact hpu

theorem likeSubstr_iff_charsContains (pat s : String)
    (h : noWildcards pat.data = true) :
    likeSubstr pat s = true ↔
      charsContains (s.data.map Char.toLower) (pat.data.map Char.toLower) = true := by
  rw [likeSubstr_infix_iff pat s h, charsContains_infix_iff]

/-! ### Lemmas about the stepwise aggregates -/

theorem aggMin_eq_min? (l : List Rat) : aggMin l = l.min? := by
  have aux : ∀ (as : List Rat) (m : Rat),
      List.foldl
        (fun acc x =>
          match acc with
          | none => some x
          | some m => some (if x < m then x else m))
        (some m) as = some (List.foldl min m as) := by
    intro as
    induction as with
    | nil => intro m; rfl
    | cons x as ih =>
      intro m
      simp only [List.foldl]
      rw [ih]
      congr 1
      by_cases hxm : x < m
      · rw [if_pos hxm, min_def, if_neg (not_le.mpr hxm)]
      · rw [if_neg hxm, min_def, if_pos (not_lt.mp hxm)]
  cases l with
  | nil => rfl
  | cons a as =>
    unfold aggMin
    simp only [List.foldl]
    rw [aux as a, List.min?_cons']

theorem aggMax_eq_max? (l : List Rat) : aggMax l = l.max? := by
  have aux : ∀ (as : List Rat) (m : Rat),
      List.foldl
        (fun acc x =>
          match acc with
          | none => some x
          | some m => some (if m < x then x else m))
        (some m) as = some (List.foldl max m as) := by
    intro as
    induction as with
    | nil => intro m; rfl
    | cons x as ih =>
      intro m
      simp only [List.foldl]
      rw [ih]
      congr 1
      by_cases hmx : m < x
      · rw [if_pos hmx, max_eq_right (le_of_lt hmx)]
      · rw [if_neg hmx, max_eq_left (not_lt.mp hmx)]
  cases l with
  | nil => rfl
  | cons a as =>
    unfold aggMax
    simp only [List.foldl]
    rw [aux as a, List.max?_cons']

theorem foldl_add_eq_sum (l : List Rat) : ∀ a : Rat, l.foldl (· + ·) a = a + l.sum := by
  induction l with
  | nil => intro a; simp
  | cons x l ih =>
    intro a
    simp only [List.foldl, List.sum_cons]
    rw [ih, add_assoc]

/-- The stepwise engine aggregates agree with the independently computed
specification aggregates. -/
theorem statsQuery_eq_statsSpec (rows : List Employee) :
    statsQuery rows = statsSpec rows := by
  unfold statsQuery statsSpec
  simp only [aggMin_eq_min?, aggMax_eq_max?, aggAvg]
  congr 1
  by_cases hemp : rows.filterMap (fun e => e.salary) = []
  · simp [hemp]
  · rw [if_neg (by simpa [List.isEmpty_iff] using hemp), if_neg hemp,
      foldl_add_eq_sum, zero_add]

/-! ### Lemmas about the fresh-id fold -/

theorem le_foldl_max_employees (l : List Employee) :
    ∀ a : Int, a ≤ l.foldl (fun m e => max m e.id) a := by
  induction l with
  | nil => intro a; exact le_refl a
  | cons x l ih =>
    intro a
    exact le_trans (le_max_left a x.id) (ih (max a x.id))

theorem mem_id_le_foldl_max_employees (l : List Employee) :
    ∀ a : Int, ∀ e ∈ l, e.id ≤ l.foldl (fun m e => max m e.id) a := by
  induction l with
  | nil => intro a e he; cases he
  | cons x l ih =>
    intro a e he
    rcases List.mem_cons.mp he with rfl | hm
    · exact le_trans (le_max_right a e.id) (le_foldl_max_employees l (max a e.id))
    · exact ih (max a x.id) e hm

/-- Every stored employee id is strictly below the fresh id. -/
theorem id_lt_freshEmployeeId (db : DB) (e : Employee) (he : e ∈ db.employees) :
    e.id < freshEmployeeId db :=
  lt_of_le_of_lt (mem_id_le_foldl_max_employees db.employees 0 e he)
    (by unfold freshEmployeeId; omega)

/-! ### Concrete database states used by scenario conjuncts, witnesses and
counterexamples -/

/-- The scenario database of the specification: department 1 "Engineering",
one employee "Ada" in it with salary 120000.0. -/
def statsScenarioDB : DB :=
  { departments := [{ id := 1, name := "Engineering" }]
    employees := [{ id := 1, name := "Ada", department_id := some 1,
                    salary := some 120000, hire_date := some "2023-01-15" }] }

/-- A database with one department "sales" and one employee "alice" in it,
both in lowercase. -/
def caseDB : DB :=
  { departments := [{ id := 1, name := "sales" }]
    employees := [{ id := 1, name := "alice", department_id := some 1,
                    salary := some 50000, hire_date := some "2023-01-15" }] }

/-- The left-joined row for the single employee of `caseDB`. -/
def caseRow : Row :=
  { id := 1, name := "alice", department_id := some 1,
    department_name := some "sales", salary := some 50000,
    hire_date := some "2023-01-15" }

/-- A database with an employee whose department reference is literally `0`
and another in department 1. -/
def deptZeroDB : DB :=
  { departments := []
    employees := [{ id := 1, name := "a", department_id := some 0,
                    salary := some 10, hire_date := none },
                  { id := 2, name := "b", department_id := some 1,
                    salary := some 20, hire_date := none }] }

/-- A database with 1001 employees, ids 0 through 1000. -/
def manyEmployeesDB : DB :=
  { departments := []
    employees := (List.range 1001).map (fun i =>
      { id := Int.ofNat i, name := "e", department_id := none,
        salary := none, hire_date := none }) }

/-- A sample stand-in for Python `float(...)`: parses exactly the literal
"120000.0" and fails on everything else. -/
def parseSample : String → Option Rat :=
  fun s => if s = "120000.0" then some 120000 else none

/-! ### C3: department-filtered statistics -/

/-- C3. For every statistics call whose department filter is a nonzero id,
the four returned aggregates equal the count, average, minimum and maximum
computed independently over exactly the employees whose department reference
equals the filter value; and on the one-department scenario database,
`get_employee_stats(department_id=1)` returns total 1 and 120000.0 for the
average, minimum and maximum salary. -/
theorem get_employee_stats_filtered_correct :
    (∀ (db : DB) (d : Int), d ≠ 0 →
      EmployeeDBInterface.get_employee_stats db (some d) =
        statsSpec (db.employees.filter (fun e => e.department_id == some d))) ∧
    EmployeeDBInterface.get_employee_stats statsScenarioDB (some 1) =
      { total_employees := 1, avg_salary := some 120000,
        min_salary := some 120000, max_salary := some 120000 } := by
  have hmain : ∀ (db : DB) (d : Int), d ≠ 0 →
      EmployeeDBInterface.get_employee_stats db (some d) =
        statsSpec (db.employees.filter (fun e => e.department_id == some d)) := by
    intro db d hd
    unfold EmployeeDBInterface.get_employee_stats
    rw [if_pos (by simp [pyTruthyInt, hd]), statsQuery_eq_statsSpec]
  refine ⟨hmain, ?_⟩
  rw [hmain statsScenarioDB 1 (by decide)]
  have hfil : statsScenarioDB.employees.filter
      (fun e => e.department_id == some 1) = statsScenarioDB.employees := rfl
  rw [hfil]
  show statsSpec statsScenarioDB.employees = _
  unfold statsSpec statsScenarioDB
  norm_num [List.min?, List.max?, List.filterMap_cons, List.filterMap_nil]

/-- Witness for C3 at the scenario database and department 1. -/
theorem get_employee_stats_filtered_correct_witness :
    EmployeeDBInterface.get_employee_stats statsScenarioDB (some 1) =
      statsSpec (statsScenarioDB.employees.filter
        (fun e => e.department_id == some 1)) :=
  get_employee_stats_filtered_correct.1 statsScenarioDB 1 (by decide)

/-! ### C10: a department filter of 0 is dropped by truthiness -/

/-- C10. Calling `get_employee_stats` with department id 0 behaves exactly
as if no filter were supplied: it returns the global aggregates over all
employees, not the aggregates over the employees whose department reference
is 0 (witnessed by a database where the two differ). -/
theorem get_employee_stats_zero_filter_is_global :
    (∀ db : DB, EmployeeDBInterface.get_employee_stats db (some 0) =
      EmployeeDBInterface.get_employee_stats db none) ∧
    (∀ db : DB, EmployeeDBInterface.get_employee_stats db (some 0) =
      statsSpec db.employees) ∧
    EmployeeDBInterface.get_employee_stats deptZeroDB (some 0) ≠
      statsSpec (deptZeroDB.employees.filter
        (fun e => e.department_id == some 0)) := by
  refine ⟨fun db => rfl, fun db => ?_, ?_⟩
  · unfold EmployeeDBInterface.get_employee_stats
    rw [if_neg (by simp [pyTruthyInt]), statsQuery_eq_statsSpec]
  · intro h
    exact absurd (congrArg Stats.total_employees h) (by decide)

/-! ### C6: the listing limit -/

/-- Counterexample to C6 as stated: no 1000-row cap is enforced anywhere,
so a call with limit 2000 on a database of 1001 employees returns more than
1000 rows. -/
theorem list_employees_cap_counterexample :
    1000 < (EmployeeDBInterface.list_employees manyEmployeesDB 2000).length := by
  have h : (EmployeeDBInterface.list_employees manyEmployeesDB 2000).length = 1001 := by
    unfold EmployeeDBInterface.list_employees sqlLimit manyEmployeesDB sortEmployeesById
    rw [if_neg (by decide)]
    rw [List.length_take, List.length_map, List.length_insertionSort,
      List.length_map, List.length_range]
    decide
  rw [h]
  decide

instance : IsTotal Employee (fun a b => a.id ≤ b.id) :=
  ⟨fun a b => Int.le_total a.id b.id⟩

instance : IsTrans Employee (fun a b => a.id ≤ b.id) :=
  ⟨fun _ _ _ h1 h2 => le_trans h1 h2⟩

/-- The rows of `sortEmployeesById` are pairwise ordered by id. -/
theorem sortEmployeesById_sorted (l : List Employee) :
    List.Pairwise (fun a b => a.id ≤ b.id) (sortEmployeesById l) := by
  have h := List.sorted_insertionSort (fun a b : Employee => a.id ≤ b.id) l
  exact h

/-- C6 (amended). For every listing call, the tool-level limit defaults to
100 when no limit argument is supplied and the result rows are ordered by
employee identifier; the number of returned rows is bounded by the supplied
non-negative limit itself — the "maximum of 1000" stated in the tool's
declared input schema is not enforced on the result by any code path. -/
theorem list_employees_limit_behavior :
    ∀ (db : DB) (limit : Int), 0 ≤ limit →
      (EmployeeDBInterface.list_employees db limit).length ≤ limit.toNat ∧
      List.Pairwise (fun a b : Row => a.id ≤ b.id)
        (EmployeeDBInterface.list_employees db limit) ∧
      (∀ engine, handle_call_tool engine db (ToolCall.list_employees none) =
        ToolOut.rows (EmployeeDBInterface.list_employees db 100)) := by
  intro db limit hlim
  have hrows : List.Pairwise (fun a b : Row => a.id ≤ b.id)
      ((sortEmployeesById db.employees).map (joinRow db)) := by
    rw [List.pairwise_map]
    exact sortEmployeesById_sorted db.employees
  refine ⟨?_, ?_, fun engine => rfl⟩
  · unfold EmployeeDBInterface.list_employees sqlLimit
    rw [if_neg (by omega)]
    exact List.length_take_le _ _
  · unfold EmployeeDBInterface.list_employees sqlLimit
    rw [if_neg (by omega)]
    exact List.Pairwise.sublist (List.take_sublist _ _) hrows

/-- Witness for C6 (amended) at the scenario database with limit 10. -/
theorem list_employees_limit_behavior_witness :
    (EmployeeDBInterface.list_employees statsScenarioDB 10).length ≤
      (10 : Int).toNat ∧
    List.Pairwise (fun a b : Row => a.id ≤ b.id)
      (EmployeeDBInterface.list_employees statsScenarioDB 10) ∧
    (∀ engine, handle_call_tool engine statsScenarioDB
        (ToolCall.list_employees none) =
      ToolOut.rows (EmployeeDBInterface.list_employees statsScenarioDB 100)) :=
  list_employees_limit_behavior statsScenarioDB 10 (by decide)

/-! ### C2 and C7: what the search filters actually match

The search SQL compares through SQLite `LIKE`, which is ASCII-case-
insensitive and treats `%` and `_` in the filter as wildcards, so plain
case-sensitive substring containment describes neither filter. -/

theorem mem_of_mem_sqlLimit {a : α} {limit : Int} {l : List α}
    (h : a ∈ sqlLimit limit l) : a ∈ l := by
  unfold sqlLimit at h
  split at h
  · exact h
  · exact List.mem_of_mem_take h

/-- Name projection of the join: the row keeps the employee's name. -/
theorem joinRow_name (db : DB) (e : Employee) : (joinRow db e).name = e.name := rfl

/-- Counterexample to C2 as stated: with both filters non-empty and spelled
in upper case, the lower-case row of `caseDB` is returned even though its
name does not contain the name filter as a substring and its department
name does not contain the department filter as a substring. -/
theorem search_employees_substring_counterexample :
    EmployeeDBInterface.search_employees caseDB "ALICE" "SALES" 50 = [caseRow] ∧
    ¬ "ALICE".data <:+: caseRow.name.data ∧
    ¬ "SALES".data <:+: (caseRow.department_name.getD "").data := by
  refine ⟨?_, ?_, ?_⟩
  · simp [EmployeeDBInterface.search_employees, caseDB, caseRow, sortEmployeesById,
      List.insertionSort, List.orderedInsert, joinRow, sqlLimit, likeSubstr,
      likeCharsMatch, likeCharEq]
  · exact fun hinf => absurd ((charsContains_infix_iff _ _).mpr hinf) (by decide)
  · exact fun hinf => absurd ((charsContains_infix_iff _ _).mpr hinf) (by decide)

/-- C2 (amended). For every search call with both filters non-empty, every
returned row satisfies both `LIKE` conditions (conjunction, not
disjunction): its name matches the name filter and its department name
matches the department filter, where matching is SQLite `LIKE` matching —
ASCII-case-insensitive, with `%` and `_` in a filter acting as wildcards.
For wildcard-free filters this means the lowercased name contains the
lowercased filter as a substring (and likewise for the department name). -/
theorem search_employees_filters_amended :
    ∀ (db : DB) (nm dept : String) (limit : Int),
      nm ≠ "" → dept ≠ "" →
      ∀ r ∈ EmployeeDBInterface.search_employees db nm dept limit,
        likeSubstr nm r.name = true ∧
        (∃ dn, r.department_name = some dn ∧ likeSubstr dept dn = true) ∧
        (noWildcards nm.data = true →
          charsContains (r.name.data.map Char.toLower)
            (nm.data.map Char.toLower) = true) ∧
        (noWildcards dept.data = true →
          ∃ dn, r.department_name = some dn ∧
            charsContains (dn.data.map Char.toLower)
              (dept.data.map Char.toLower) = true) := by
  intro db nm dept limit hn hd r hr
  have hs : EmployeeDBInterface.search_employees db nm dept limit =
      sqlLimit limit
        ((((sortEmployeesById db.employees).map (joinRow db)).filter
            (fun r => likeSubstr nm r.name)).filter
          (fun r =>
            match r.department_name with
            | some dn => likeSubstr dept dn
            | none => false)) := by
    simp only [EmployeeDBInterface.search_employees]
    rw [if_pos hn, if_pos hd]
  rw [hs] at hr
  have he := mem_of_mem_sqlLimit hr
  have hq2 := (List.mem_filter.mp he).2
  have hq1 := (List.mem_filter.mp (List.mem_filter.mp he).1).2
  cases hdn : r.department_name with
  | none => rw [hdn] at hq2; cases hq2
  | some dn =>
    rw [hdn] at hq2
    refine ⟨hq1, ⟨dn, rfl, hq2⟩, fun hnw => ?_, fun hdw => ?_⟩
    · exact (likeSubstr_iff_charsContains nm r.name hnw).mp hq1
    · exact ⟨dn, rfl, (likeSubstr_iff_charsContains dept dn hdw).mp hq2⟩

/-- Witness for C2 (amended): the row of `caseDB` returned for the
non-empty filters "lice" and "ale". -/
theorem search_employees_filters_amended_witness :
    likeSubstr "lice" caseRow.name = true ∧
    (∃ dn, caseRow.department_name = some dn ∧ likeSubstr "ale" dn = true) ∧
    (noWildcards "lice".data = true →
      charsContains (caseRow.name.data.map Char.toLower)
        ("lice".data.map Char.toLower) = true) ∧
    (noWildcards "ale".data = true →
      ∃ dn, caseRow.department_name = some dn ∧
        charsContains (dn.data.map Char.toLower)
          ("ale".data.map Char.toLower) = true) := by
  have hmem : caseRow ∈ EmployeeDBInterface.search_employees caseDB "lice" "ale" 50 := by
    have hs : EmployeeDBInterface.search_employees caseDB "lice" "ale" 50 = [caseRow] := by
      simp [EmployeeDBInterface.search_employees, caseDB, caseRow, sortEmployeesById,
        List.insertionSort, List.orderedInsert, joinRow, sqlLimit, likeSubstr,
        likeCharsMatch, likeCharEq]
    rw [hs]
    exact List.mem_singleton.mpr rfl
  exact search_employees_filters_amended caseDB "lice" "ale" 50 (by decide)
    (by decide) caseRow hmem

/-- Counterexample to C7 as stated: the filter "ALICE" differs from the
stored name "alice" in letter case only, so under case-sensitive matching
the row would not be returned — yet the search returns it. -/
theorem search_employees_case_counterexample :
    EmployeeDBInterface.search_employees caseDB "ALICE" "" 50 = [caseRow] ∧
    ¬ "ALICE".data <:+: caseRow.name.data ∧
    "ALICE".data.map Char.toLower <:+: caseRow.name.data.map Char.toLower := by
  refine ⟨?_, ?_, ?_⟩
  · simp [EmployeeDBInterface.search_employees, caseDB, caseRow, sortEmployeesById,
      List.insertionSort, List.orderedInsert, joinRow, sqlLimit, likeSubstr,
      likeCharsMatch, likeCharEq]
  · exact fun hinf => absurd ((charsContains_infix_iff _ _).mpr hinf) (by decide)
  · exact (charsContains_infix_iff _ _).mp (by decide)

/-- C7 (amended). The substring matching applied to the filters is
ASCII-case-insensitive, not case-sensitive: a single stored employee whose
lowercased name contains the lowercased (wildcard-free) name filter is
returned even when the two differ in letter case. -/
theorem search_employees_case_insensitive :
    ∀ (ds : List Department) (e : Employee) (nm : String) (limit : Int),
      nm ≠ "" → noWildcards nm.data = true → 1 ≤ limit →
      charsContains (e.name.data.map Char.toLower)
        (nm.data.map Char.toLower) = true →
      EmployeeDBInterface.search_employees
          { departments := ds, employees := [e] } nm "" limit =
        [joinRow { departments := ds, employees := [e] } e] := by
  intro ds e nm limit hn hw hl hc
  have hlike : likeSubstr nm (joinRow { departments := ds, employees := [e] } e).name = true :=
    (likeSubstr_iff_charsContains nm e.name hw).mpr hc
  simp only [EmployeeDBInterface.search_employees]
  rw [if_pos hn, if_neg (by simp)]
  have hsort : sortEmployeesById [e] = [e] := rfl
  show sqlLimit limit
      (((sortEmployeesById [e]).map
          (joinRow { departments := ds, employees := [e] })).filter
        (fun r => likeSubstr nm r.name)) = _
  rw [hsort, List.map_cons, List.map_nil]
  simp only [List.filter_cons, hlike, if_true, List.filter_nil]
  unfold sqlLimit
  rw [if_neg (by omega), List.take_of_length_le (by simp; omega)]

/-- Witness for C7 (amended): the upper-case filter "ALICE" still returns
the lower-case row of the single-employee database. -/
theorem search_employees_case_insensitive_witness :
    EmployeeDBInterface.search_employees
        { departments := [{ id := 1, name := "sales" }],
          employees := [{ id := 1, name := "alice", department_id := some 1,
                          salary := some 50000, hire_date := some "2023-01-15" }] }
        "ALICE" "" 50 =
      [joinRow
        { departments := [{ id := 1, name := "sales" }],
          employees := [{ id := 1, name := "alice", department_id := some 1,
                          salary := some 50000, hire_date := some "2023-01-15" }] }
        { id := 1, name := "alice", department_id := some 1,
          salary := some 50000, hire_date := some "2023-01-15" }] :=
  search_employees_case_insensitive
    [{ id := 1, name := "sales" }]
    { id := 1, name := "alice", department_id := some 1,
      salary := some 50000, hire_date := some "2023-01-15" }
    "ALICE" 50 (by decide) (by decide) (by decide) (by decide)

/-! ### C4: create / get round-trip -/

/-- An empty database seeded with one department, for the round-trip
witness. -/
def seedDB : DB :=
  { departments := [{ id := 1, name := "Engineering" }], employees := [] }

/-- C4. Creating an employee with a name, an existing department reference,
a salary field that parses to a number, and a hire-date string, then
fetching the employee by the identifier assigned at creation, returns
exactly those four field values together with the name of the referenced
department joined in as the department name. -/
theorem create_then_get_roundtrip :
    ∀ (parse : String → Option Rat) (db : DB) (nm : String) (did : Int)
      (salary_field : String) (hire : String) (d : Department) (v : Rat),
      salary_field ≠ "" → parse salary_field = some v →
      db.departments.find? (fun dd => dd.id == did) = some d →
      ∃ db2 newId,
        create_employee parse db nm (some did) salary_field (some hire) =
          CreateResult.created db2 newId ∧
        EmployeeDBInterface.get_employee db2 newId =
          some { id := newId, name := nm, department_id := some did,
                 department_name := some d.name, salary := some v,
                 hire_date := some hire } := by
  intro parse db nm did salary_field hire d v hsf hp hd
  refine ⟨{ db with employees := db.employees ++
    [{ id := freshEmployeeId db, name := nm, department_id := some did,
       salary := some v, hire_date := some hire }] }, freshEmployeeId db, ?_, ?_⟩
  · simp only [create_employee]
    rw [if_pos hsf, hp]
  · have h1 : db.employees.find? (fun e => e.id == freshEmployeeId db) = none :=
      List.find?_eq_none.mpr (fun e he => by
        simp only [beq_iff_eq]
        exact ne_of_lt (id_lt_freshEmployeeId db e he))
    unfold EmployeeDBInterface.get_employee
    simp only [List.find?_append, h1, Option.none_or, List.find?_cons,
      beq_self_eq_true, Option.map_some']
    simp [joinRow, hd]

/-- Witness for C4: creating "Ada" in the seeded database and reading the
row back. -/
theorem create_then_get_roundtrip_witness :
    ∃ db2 newId,
      create_employee parseSample seedDB "Ada" (some 1) "120000.0"
          (some "2023-01-15") =
        CreateResult.created db2 newId ∧
      EmployeeDBInterface.get_employee db2 newId =
        some { id := newId, name := "Ada", department_id := some 1,
               department_name := some "Engineering", salary := some 120000,
               hire_date := some "2023-01-15" } :=
  create_then_get_roundtrip parseSample seedDB "Ada" 1 "120000.0" "2023-01-15"
    { id := 1, name := "Engineering" } 120000 (by decide) (by decide) (by decide)

/-! ### C5: operations on a missing employee identifier -/

/-- C5. For an identifier carried by no employee row, the delete operation
returns the database completely unchanged and reports not-found (never
success), the direct get returns an explicit `None`, and the protocol
adapter answers with the "Employee not found" text. -/
theorem delete_missing_id_behavior :
    ∀ (db : DB) (eid : Int),
      (∀ e ∈ db.employees, e.id ≠ eid) →
      delete_employee db eid = (db, DeleteOutcome.notFound) ∧
      EmployeeDBInterface.get_employee db eid = none ∧
      (∀ engine, handle_call_tool engine db (ToolCall.get_employee eid) =
        ToolOut.text "Employee not found") := by
  intro db eid h
  have hfind : db.employees.find? (fun e => e.id == eid) = none :=
    List.find?_eq_none.mpr (fun e he => by simpa using h e he)
  refine ⟨?_, ?_, fun engine => ?_⟩
  · unfold delete_employee
    rw [hfind]
  · unfold EmployeeDBInterface.get_employee
    rw [hfind]
    rfl
  · show (match (db.employees.find? (fun e => e.id == eid)).map (joinRow db) with
      | some r => ToolOut.rowOut r
      | none => ToolOut.text "Employee not found") =
      ToolOut.text "Employee not found"
    rw [hfind]
    rfl

/-- Witness for C5 at `caseDB` with the absent identifier 99. -/
theorem delete_missing_id_behavior_witness :
    delete_employee caseDB 99 = (caseDB, DeleteOutcome.notFound) ∧
    EmployeeDBInterface.get_employee caseDB 99 = none ∧
    (∀ engine, handle_call_tool engine caseDB (ToolCall.get_employee 99) =
      ToolOut.text "Employee not found") :=
  delete_missing_id_behavior caseDB 99 (by decide)

/-! ### C9: invalid salary input on the edit form -/

/-- C9. For every edit-form submission on an existing employee whose salary
field is non-empty but fails numeric parsing, the edit handler reports the
validation error and performs no mutation: the returned database is exactly
the input database. -/
theorem edit_invalid_salary_preserves_db :
    ∀ (parse : String → Option Rat) (db : DB) (eid : Int) (nm : String)
      (did : Option Int) (salary_field : String) (hire : Option String),
      (db.employees.find? (fun e => e.id == eid)).isSome = true →
      salary_field ≠ "" → parse salary_field = none →
      edit_employee parse db eid nm did salary_field hire =
        (db, EditOutcome.invalidSalary) := by
  intro parse db eid nm did salary_field hire hfound hsf hp
  obtain ⟨e0, he0⟩ := Option.isSome_iff_exists.mp hfound
  unfold edit_employee
  rw [he0]
  simp only [if_pos hsf, hp]

/-- Witness for C9: editing the employee of `caseDB` with the unparsable
salary field "abc". -/
theorem edit_invalid_salary_preserves_db_witness :
    edit_employee parseSample caseDB 1 "alice2" (some 1) "abc" (some "2024") =
      (caseDB, EditOutcome.invalidSalary) :=
  edit_invalid_salary_preserves_db parseSample caseDB 1 "alice2" (some 1)
    "abc" (some "2024") (by decide) (by decide) (by decide)

/-! ### C8: the two adapters agree operation by operation -/

/-- C8. For every database state, argument assignment and engine behavior,
the protocol-server adapter and the directly callable adapter produce the
same result rows on all six operations, up to the textual packaging of the
protocol form (a missing row becomes the "Employee not found" text, and the
passthrough query carries rows exactly when the direct call succeeds). -/
theorem adapters_produce_equal_rows :
    ∀ (engine : String → Except String (List (List (String × String))))
      (db : DB),
      (∀ limit : Option Int,
        handle_call_tool engine db (ToolCall.list_employees limit) =
          ToolOut.rows (EmployeeDBInterface.list_employees db (limit.getD 100))) ∧
      (∀ eid : Int,
        handle_call_tool engine db (ToolCall.get_employee eid) =
          match EmployeeDBInterface.get_employee db eid with
          | some r => ToolOut.rowOut r
          | none => ToolOut.text "Employee not found") ∧
      (∀ (nm dept : Option String) (limit : Option Int),
        handle_call_tool engine db (ToolCall.search_employees nm dept limit) =
          ToolOut.rows (EmployeeDBInterface.search_employees db (nm.getD "")
            (dept.getD "") (limit.getD 50))) ∧
      (handle_call_tool engine db ToolCall.list_departments =
        ToolOut.deptRows (EmployeeDBInterface.list_departments db)) ∧
      (∀ did : Option Int,
        handle_call_tool engine db (ToolCall.get_employee_stats did) =
          ToolOut.statsOut (EmployeeDBInterface.get_employee_stats db did)) ∧
      (∀ q : String,
        ToolOut.queryRowsOf (handle_call_tool engine db (ToolCall.safe_query q)) =
          exceptRowsOf (EmployeeDBInterface.safe_query engine q)) := by
  intro engine db
  refine ⟨fun limit => rfl, fun eid => rfl, fun nm dept limit => rfl, rfl,
    fun did => ?_, fun q => ?_⟩
  · by_cases h : pyTruthyInt did = true
    · simp only [handle_call_tool, EmployeeDBInterface.get_employee_stats,
        if_pos h]
    · simp only [handle_call_tool, EmployeeDBInterface.get_employee_stats,
        if_neg h]
  · by_cases hv : validate_sql_safety q = true
    · cases hq : engine q with
      | ok rs =>
        simp [handle_call_tool, EmployeeDBInterface.safe_query,
          ToolOut.queryRowsOf, exceptRowsOf, hv, hq]
      | error e =>
        simp [handle_call_tool, EmployeeDBInterface.safe_query,
          ToolOut.queryRowsOf, exceptRowsOf, hv, hq]
    · simp [handle_call_tool, EmployeeDBInterface.safe_query,
        ToolOut.queryRowsOf, exceptRowsOf, hv]
